import Mathlib

/-!
Verification of the SimpleFpCalc calculation engine.

This file gives a shallow embedding of the pure calculation functions in
`src/fpcalc.py` (table lookups, height-amplification, demand reduction and
coefficient assembly) and proves properties of them.

Modelling conventions:
* Python floats are modelled as rationals (`ℚ`); every numeric literal in the
  source (`0.4`, `1.3`, `2.5`, ...) is exactly representable.
* A Python exception that can escape a function is modelled by returning
  `Except CalcErr _`; the error constructor names the Python exception class.
* `math.sqrt` and the float power `hn ** x` are irrational operations with no
  rational counterpart; they are passed in as explicit function parameters
  (`sqrt`, `rpow`), so every theorem below holds for an arbitrary
  interpretation of them unless it constrains them explicitly.
* A Python dict row is modelled by a structure holding the fields the code
  reads; the component table's two possible name labels ("Component" /
  "Components") are modelled by a per-row `CLabel` tag, and reading a missing
  key is a `keyError`.
* `calculate_hf` in the source returns either a 3-tuple or (in one branch) a
  bare float; the dynamic result is modelled by the inductive `HfResult`.
-/

deriving instance DecidableEq for Except

/-- Python exception classes that the modelled code can raise. -/
inductive CalcErr where
  | zeroDivisionError
  | valueError
  | indexError
  | keyError
  deriving DecidableEq, Repr

/-- Python's `str.strip()`: drop surrounding whitespace (modelled on the
character list so that the kernel can evaluate it). -/
def pyStrip (s : String) : String :=
  String.mk (((s.data.dropWhile Char.isWhitespace).reverse.dropWhile Char.isWhitespace).reverse)

/-- Python's `str.lower()` (ASCII case folding). -/
def pyLower (s : String) : String := String.mk (s.data.map Char.toLower)

/-- `s.strip().lower()` — the key normalization used by every table lookup. -/
def normalizeKey (s : String) : String := pyLower (pyStrip s)

/-- A row of the SFRS table: fields "SFRS", "R", "Omega". -/
structure SfrsRow where
  SFRS : String
  R : ℚ
  Omega : ℚ
  deriving DecidableEq

/-- The row loop of `get_sfrs_factors`: first normalized match wins,
falling through to the `(1.0, 1.0)` default. -/
def sfrsLoop (selected : String) : List SfrsRow → Option ℚ × Option ℚ
  | [] => (some 1.0, some 1.0)
  | row :: rest =>
    if normalizeKey row.SFRS = normalizeKey selected then (some row.R, some row.Omega)
    else sfrsLoop selected rest

/-- `get_sfrs_factors(sfrs_data, selected_sfrs)` (fpcalc.py lines 6-12). -/
def get_sfrs_factors (sfrs_data : List SfrsRow) (selected_sfrs : Option String) :
    Option ℚ × Option ℚ :=
  match selected_sfrs with
  | none => (none, none)
  | some s => sfrsLoop s sfrs_data

/-- Which of the two synonymous labels a component row stores its name under. -/
inductive CLabel where
  | component
  | components
  deriving DecidableEq, Repr

/-- A row of the component table.  `CAR_above`, `CAR_below` and `Rpo` may be
null in the data (`none`). -/
structure CompRow where
  label : CLabel
  name : String
  CAR_above : Option ℚ
  CAR_below : Option ℚ
  Rpo : Option ℚ
  deriving DecidableEq

/-- Python's `v or dflt` for a possibly-null numeric `v`: `None` and `0` are
falsy and give the default. -/
def pyOr (v : Option ℚ) (dflt : ℚ) : ℚ :=
  match v with
  | none => dflt
  | some x => if x = 0 then dflt else x

/-- The row loop of `get_component_factors`.  Reading `row[key]` on a row that
stores its name under the other label is a `KeyError`. -/
def compLoop (key : CLabel) (cname location : String) :
    List CompRow → Except CalcErr (ℚ × ℚ)
  | [] => .ok (1.0, 1.0)
  | row :: rest =>
    if row.label = key then
      if normalizeKey row.name = normalizeKey cname then
        let car := if location = "Supported Above Grade" then row.CAR_above else row.CAR_below
        .ok (pyOr car 1.0, pyOr row.Rpo 1.5)
      else compLoop key cname location rest
    else .error .keyError

/-- `get_component_factors(component_data, component_name, location)`
(fpcalc.py lines 14-23).  The name label is chosen by probing the first row
(`component_data[0]`), which is an `IndexError` on an empty table. -/
def get_component_factors (component_data : List CompRow) (component_name : Option String)
    (location : String) : Except CalcErr (ℚ × ℚ) :=
  match component_name with
  | none => .ok (1.0, 1.0)
  | some cname =>
    match component_data with
    | [] => .error .indexError
    | first :: _ =>
      let key := if first.label = CLabel.component then CLabel.component else CLabel.components
      compLoop key cname location component_data

/-- A row of the period table: fields "Structure Type ", "Ct", "x". -/
structure PeriodRow where
  structureType : String
  Ct : ℚ
  x : ℚ
  deriving DecidableEq

/-- The row loop of `calculate_ta`; `rpow` interprets the float power
`hn ** x`. -/
def taLoop (rpow : ℚ → ℚ → ℚ) (stype : String) (hn : ℚ) :
    List PeriodRow → Option ℚ × Option ℚ × Option ℚ
  | [] => (none, none, none)
  | row :: rest =>
    if normalizeKey row.structureType = normalizeKey stype then
      (some (row.Ct * rpow hn row.x), some row.Ct, some row.x)
    else taLoop rpow stype hn rest

/-- `calculate_ta(period_data, structure_type, hn)` (fpcalc.py lines 25-34). -/
def calculate_ta (rpow : ℚ → ℚ → ℚ) (period_data : List PeriodRow)
    (structure_type : Option String) (hn : ℚ) : Option ℚ × Option ℚ × Option ℚ :=
  match structure_type with
  | none => (none, none, none)
  | some st => taLoop rpow st hn period_data

/-- The dynamic result of `calculate_hf`: every branch but one returns a
3-tuple `(Hf, a1-or-None, a2-or-None)`; the degenerate-input branch returns
the bare float `3.5`. -/
inductive HfResult where
  | triple (Hf : ℚ) (a1 a2 : Option ℚ)
  | scalar (Hf : ℚ)
  deriving DecidableEq, Repr

/-- `calculate_hf(z, h, Ta)` (fpcalc.py lines 39-49).  With `Ta` absent and
`h = 0` the division `z / h` raises `ZeroDivisionError`. -/
def calculate_hf (z h : ℚ) (Ta : Option ℚ) : Except CalcErr HfResult :=
  let z := if z > h then h else z
  match Ta with
  | none =>
    if h = 0 then .error .zeroDivisionError
    else .ok (.triple (1 + 2.5 * (z / h)) none none)
  | some ta =>
    if ta ≤ 0 ∨ h ≤ 0 then .ok (.scalar 3.5)
    else
      .ok (.triple (1 + min (1 / ta) 2.5 * (z / h) + max (1 - (0.4 / ta) ^ 2) 0 * (z / h) ^ 10)
        (some (min (1 / ta) 2.5)) (some (max (1 - (0.4 / ta) ^ 2) 0)))

/-- `calculate_rmu(R, Ie, Omega_0)` (fpcalc.py lines 52-57).  The
`ZeroDivisionError` from a zero denominator is caught and yields `1.3`;
`math.sqrt` of a negative radicand is a `ValueError` that is not caught. -/
def calculate_rmu (sqrt : ℚ → ℚ) (R Ie Omega_0 : ℚ) : Except CalcErr ℚ :=
  if Ie * Omega_0 = 0 then .ok 1.3
  else if 1.1 * R / (Ie * Omega_0) < 0 then .error .valueError
  else .ok (max (sqrt (1.1 * R / (Ie * Omega_0))) 1.3)

/-- `calculate_fp_coeff(SDS, Ip, Wp, Hf, Rmu, CAR, Rpo)` (fpcalc.py lines
59-64).  Returns `(Fp, Fp_calc, Fp_min, Fp_max)`; dividing by a zero `Rmu` or
`Rpo` raises `ZeroDivisionError`. -/
def calculate_fp_coeff (SDS Ip Wp Hf Rmu CAR Rpo : ℚ) :
    Except CalcErr (ℚ × ℚ × ℚ × ℚ) :=
  if Rmu = 0 ∨ Rpo = 0 then .error .zeroDivisionError
  else
    .ok (max (min (0.4 * SDS * Ip * (Hf / Rmu) * (CAR / Rpo)) (1.6 * SDS * Ip)) (0.3 * SDS * Ip),
      0.4 * SDS * Ip * (Hf / Rmu) * (CAR / Rpo),
      0.3 * SDS * Ip,
      1.6 * SDS * Ip)

/-- Evaluation of `calculate_fp_coeff` at all-ones arguments, shared by the
concrete instantiations below. -/
theorem fp_coeff_eval_ones :
    calculate_fp_coeff 1 1 1 1 1 1 1 = .ok (0.4, 0.4, 0.3, 1.6) := by
  norm_num [calculate_fp_coeff, min_def, max_def]

/-- C1: for `SDS ≥ 0` and `Ip ≥ 0`, whenever `calculate_fp_coeff` returns, the
returned `Fp` is exactly the clamp `max (min Fp_calc Fp_max) Fp_min` of the
returned intermediates, and `Fp_min ≤ Fp ≤ Fp_max`. -/
theorem C1_fp_clamped (SDS Ip Wp Hf Rmu CAR Rpo Fp Fp_calc Fp_min Fp_max : ℚ)
    (hS : 0 ≤ SDS) (hI : 0 ≤ Ip)
    (hok : calculate_fp_coeff SDS Ip Wp Hf Rmu CAR Rpo = .ok (Fp, Fp_calc, Fp_min, Fp_max)) :
    Fp = max (min Fp_calc Fp_max) Fp_min ∧ Fp_min ≤ Fp ∧ Fp ≤ Fp_max := by
  by_cases hg : Rmu = 0 ∨ Rpo = 0
  · simp [calculate_fp_coeff, hg] at hok
  · simp [calculate_fp_coeff, hg] at hok
    obtain ⟨h1, h2, h3, h4⟩ := hok
    subst h1 h2 h3 h4
    refine ⟨rfl, le_max_right _ _, ?_⟩
    have hSI : 0 ≤ SDS * Ip := mul_nonneg hS hI
    have hmM : 0.3 * SDS * Ip ≤ 1.6 * SDS * Ip := by nlinarith
    exact max_le (min_le_right _ _) hmM

/-- Witness for C1 at `SDS = Ip = Wp = Hf = Rmu = CAR = Rpo = 1`. -/
theorem C1_fp_clamped_witness :
    calculate_fp_coeff 1 1 1 1 1 1 1 = .ok (0.4, 0.4, 0.3, 1.6) ∧
    ((0.4 : ℚ) = max (min 0.4 1.6) 0.3 ∧ (0.3 : ℚ) ≤ 0.4 ∧ (0.4 : ℚ) ≤ 1.6) :=
  ⟨fp_coeff_eval_ones,
   C1_fp_clamped 1 1 1 1 1 1 1 0.4 0.4 0.3 1.6 (by norm_num) (by norm_num) fp_coeff_eval_ones⟩

/-- C6: the end-to-end scenario `SDS = 1.0`, `Ip = 1.5`, `h = 60`, `z = 60`,
`Ta` absent, `R = 0`, `Ω₀ = 0`, `CAR = 1.0`, `Rpo = 1.5`: `Hf = 3.5`,
`Rmu = 1.3`, and `Fp = Fp_calc = 14/13 ≈ 1.0769`, unclamped within
`[0.45, 2.4]`. -/
theorem C6_end_to_end :
    calculate_hf 60 60 none = .ok (.triple 3.5 none none) ∧
    (∀ sqrt Ie, calculate_rmu sqrt 0 Ie 0 = .ok 1.3) ∧
    (∀ Wp, calculate_fp_coeff 1 1.5 Wp 3.5 1.3 1 1.5 = .ok (14 / 13, 14 / 13, 0.45, 2.4)) := by
  refine ⟨by norm_num [calculate_hf], fun sqrt Ie => by simp [calculate_rmu], fun Wp => ?_⟩
  norm_num [calculate_fp_coeff, min_def, max_def]

/-- C7 counterexample: at `SDS = Ip = 1` the intermediates are
`Fp_min = 0.3`, `Fp_max = 1.6`, and `0.3 ≠ 0.75 × 1.6 / 2 = 0.6`, so the
claimed relation `Fp_min = 0.75 × Fp_max / 2` is false. -/
theorem C7_counterexample :
    calculate_fp_coeff 1 1 1 1 1 1 1 = .ok (0.4, 0.4, 0.3, 1.6) ∧
    ¬ ((0.3 : ℚ) = 0.75 * 1.6 / 2) :=
  ⟨fp_coeff_eval_ones, by norm_num⟩

/-- C7 (amended): for `SDS ≥ 0` and `Ip ≥ 0`, the intermediates returned by
`calculate_fp_coeff` satisfy `Fp_min = 0.375 × Fp_max / 2`, equivalently
`Fp_max = 16/3 × Fp_min`. -/
theorem C7_min_max_ratio (SDS Ip Wp Hf Rmu CAR Rpo Fp Fp_calc Fp_min Fp_max : ℚ)
    (hS : 0 ≤ SDS) (hI : 0 ≤ Ip)
    (hok : calculate_fp_coeff SDS Ip Wp Hf Rmu CAR Rpo = .ok (Fp, Fp_calc, Fp_min, Fp_max)) :
    Fp_min = 0.375 * Fp_max / 2 ∧ Fp_max = 16 / 3 * Fp_min := by
  by_cases hg : Rmu = 0 ∨ Rpo = 0
  · simp [calculate_fp_coeff, hg] at hok
  · simp [calculate_fp_coeff, hg] at hok
    obtain ⟨h1, h2, h3, h4⟩ := hok
    subst h3 h4
    constructor <;> ring

/-- Witness for the amended C7 at `SDS = Ip = 1`. -/
theorem C7_min_max_ratio_witness :
    calculate_fp_coeff 1 1 1 1 1 1 1 = .ok (0.4, 0.4, 0.3, 1.6) ∧
    ((0.3 : ℚ) = 0.375 * 1.6 / 2 ∧ (1.6 : ℚ) = 16 / 3 * 0.3) :=
  ⟨fp_coeff_eval_ones,
   C7_min_max_ratio 1 1 1 1 1 1 1 0.4 0.4 0.3 1.6 (by norm_num) (by norm_num) fp_coeff_eval_ones⟩

/-- C9: `calculate_fp_coeff` is independent of `Wp` — any two weight values
give the identical result quadruple. -/
theorem C9_wp_independent (SDS Ip Wp1 Wp2 Hf Rmu CAR Rpo : ℚ) :
    calculate_fp_coeff SDS Ip Wp1 Hf Rmu CAR Rpo =
      calculate_fp_coeff SDS Ip Wp2 Hf Rmu CAR Rpo := rfl

/-- Whether a modelled call completes normally (no Python exception). -/
def completes {α : Type} (e : Except CalcErr α) : Bool :=
  match e with
  | .ok _ => true
  | .error _ => false

/-- The source's clamp `if z > h: z = h` is `min z h`. -/
theorem clamp_eq_min (z h : ℚ) : (if z > h then h else z) = min z h := by
  rcases le_or_lt z h with hle | hlt
  · rw [if_neg (not_lt.mpr hle), min_eq_left hle]
  · rw [if_pos hlt, min_eq_right hlt.le]

/-- C2: `calculate_rmu` returns exactly `1.3` on a zero denominator
`Ie * Ω₀`; on a nonzero denominator with nonnegative radicand it returns
`max (sqrt (1.1 R / (Ie Ω₀))) 1.3`; every value it returns is `≥ 1.3`; and no
division error escapes to the caller. -/
theorem C2_rmu_floor (sqrt : ℚ → ℚ) (R Ie Omega_0 : ℚ) :
    (Ie * Omega_0 = 0 → calculate_rmu sqrt R Ie Omega_0 = .ok 1.3) ∧
    (Ie * Omega_0 ≠ 0 → 0 ≤ 1.1 * R / (Ie * Omega_0) →
      calculate_rmu sqrt R Ie Omega_0 = .ok (max (sqrt (1.1 * R / (Ie * Omega_0))) 1.3)) ∧
    (∀ v, calculate_rmu sqrt R Ie Omega_0 = .ok v → 1.3 ≤ v) ∧
    calculate_rmu sqrt R Ie Omega_0 ≠ .error .zeroDivisionError := by
  unfold calculate_rmu
  split_ifs with h0 hneg
  · refine ⟨fun _ => rfl, fun hne _ => absurd h0 hne, ?_, by simp⟩
    intro v hv
    simp only [Except.ok.injEq] at hv
    rw [← hv]
  · refine ⟨fun hz => absurd hz h0, fun _ hge => absurd hneg (not_lt.mpr hge), ?_, by simp⟩
    intro v hv
    simp at hv
  · refine ⟨fun hz => absurd hz h0, fun _ _ => rfl, ?_, by simp⟩
    intro v hv
    simp only [Except.ok.injEq] at hv
    rw [← hv]
    exact le_max_right _ _

/-- Witness for C2: the zero-denominator branch at `Ie = Ω₀ = 0` and the
general branch at `R = 0`, `Ie = Ω₀ = 1`, both with `sqrt` read as the
identity. -/
theorem C2_rmu_floor_witness :
    calculate_rmu (fun q => q) 0 0 0 = .ok 1.3 ∧
    calculate_rmu (fun q => q) 0 1 1 = .ok (max ((fun q => q) (1.1 * 0 / (1 * 1))) 1.3) :=
  ⟨(C2_rmu_floor (fun q => q) 0 0 0).1 (by norm_num),
   (C2_rmu_floor (fun q => q) 0 1 1).2.1 (by norm_num) (by norm_num)⟩

/-- C3: on a degenerate input (`Ta` present and `Ta ≤ 0`), `calculate_hf`
returns the bare scalar `3.5` (the source's `return 3.5`), not the
`(Hf, a1, a2)` triple shape of every other branch. -/
theorem C3_degenerate_scalar :
    calculate_hf 10 20 (some (-1)) = .ok (.scalar 3.5) := by
  norm_num [calculate_hf]

/-- C4 counterexample: with `Ta` absent and `h = 0`, `calculate_hf` raises
`ZeroDivisionError` (the division `z / h` in the absent-`Ta` branch), so it
does not complete for every numeric input. -/
theorem C4_counterexample :
    calculate_hf 1 0 none = .error .zeroDivisionError := by
  norm_num [calculate_hf]

/-- C4 (amended): `calculate_hf` completes without an exception exactly when
not (`Ta` absent and `h = 0`); in particular every `Ta`-present input
completes, and the only escaping fault is the `z / h` division by zero. -/
theorem C4_no_exception_iff (z h : ℚ) (Ta : Option ℚ) :
    completes (calculate_hf z h Ta) = true ↔ (Ta = none → h ≠ 0) := by
  cases Ta with
  | none => by_cases h0 : h = 0 <;> simp [calculate_hf, h0, completes]
  | some ta => by_cases hg : ta ≤ 0 ∨ h ≤ 0 <;> simp [calculate_hf, hg, completes]

/-- Witness for the amended C4 at `z = 0`, `h = 12`, `Ta` absent. -/
theorem C4_no_exception_iff_witness :
    completes (calculate_hf 0 12 none) = true :=
  (C4_no_exception_iff 0 12 none).mpr (fun _ => by norm_num)

/-- C10: with `Ta` absent, `h > 0` and `z ≥ 0`, `calculate_hf` returns
`Hf = 1 + 2.5 (min z h / h)` with absent shape coefficients; this `Hf` lies in
`[1, 3.5]` and equals `3.5` exactly when `z ≥ h`. -/
theorem C10_hf_absent_bounds (z h : ℚ) (hz : 0 ≤ z) (hh : 0 < h) :
    calculate_hf z h none = .ok (.triple (1 + 2.5 * (min z h / h)) none none) ∧
    1 ≤ 1 + 2.5 * (min z h / h) ∧
    1 + 2.5 * (min z h / h) ≤ 3.5 ∧
    (1 + 2.5 * (min z h / h) = 3.5 ↔ h ≤ z) := by
  have hq0 : 0 ≤ min z h / h := div_nonneg (le_min hz hh.le) hh.le
  have hq1 : min z h / h ≤ 1 := by
    rw [div_le_one hh]
    exact min_le_right z h
  refine ⟨?_, by linarith, by linarith, ?_, ?_⟩
  · simp only [calculate_hf, clamp_eq_min z h]
    rw [if_neg hh.ne']
  · intro he
    have hone : min z h / h = 1 := by linarith
    rw [div_eq_one_iff_eq hh.ne'] at hone
    exact min_eq_right_iff.mp hone
  · intro hzh
    rw [min_eq_right hzh, div_self hh.ne']
    norm_num

/-- Witness for C10 at `z = 15`, `h = 60`. -/
theorem C10_hf_absent_bounds_witness :
    calculate_hf 15 60 none = .ok (.triple (1 + 2.5 * (min 15 60 / 60)) none none) ∧
    1 ≤ 1 + 2.5 * ((min 15 60 : ℚ) / 60) ∧
    1 + 2.5 * ((min 15 60 : ℚ) / 60) ≤ 3.5 ∧
    (1 + 2.5 * ((min 15 60 : ℚ) / 60) = 3.5 ↔ (60 : ℚ) ≤ 15) :=
  C10_hf_absent_bounds 15 60 (by norm_num) (by norm_num)

/-- The component row loop returns the `(1.0, 1.0)` fallback when every row
carries the probed label and none matches the (normalized) lookup key. -/
theorem compLoop_miss (key : CLabel) (cname location : String) :
    ∀ l : List CompRow, (∀ row ∈ l, row.label = key) →
      (∀ row ∈ l, normalizeKey row.name ≠ normalizeKey cname) →
      compLoop key cname location l = .ok (1.0, 1.0)
  | [], _, _ => rfl
  | row :: rest, hlab, hmiss => by
    rw [compLoop, if_pos (hlab row (List.mem_cons_self row rest)),
      if_neg (hmiss row (List.mem_cons_self row rest))]
    exact compLoop_miss key cname location rest
      (fun r hr => hlab r (List.mem_cons_of_mem row hr))
      (fun r hr => hmiss r (List.mem_cons_of_mem row hr))

/-- The label probed from the first row is that row's own label. -/
theorem probe_label_eq (first : CompRow) :
    (if first.label = CLabel.component then CLabel.component else CLabel.components)
      = first.label := by
  cases h : first.label
  · rw [if_pos rfl]
  · rw [if_neg (by simp [h])]

/-- C5 counterexample: with a present key and an empty component table, the
probe `component_data[0]` raises `IndexError` rather than returning the
`(1.0, 1.0)` fallback. -/
theorem C5_counterexample :
    get_component_factors [] (some "x") "Supported Above Grade" = .error .indexError := rfl

/-- C5 (amended): `get_component_factors` returns the fallback `(1.0, 1.0)`
with no error when the key is absent (any table, empty included), and when
the key is present, the table is nonempty, every row stores its name under
the same label as the first row, and no row's normalized name matches; a
present key on an empty table instead raises `IndexError`. -/
theorem C5_fallback (first : CompRow) (rest : List CompRow) (location cname : String)
    (hlab : ∀ row ∈ first :: rest, row.label = first.label)
    (hmiss : ∀ row ∈ first :: rest, normalizeKey row.name ≠ normalizeKey cname) :
    get_component_factors (first :: rest) (some cname) location = .ok (1.0, 1.0) ∧
    ∀ data : List CompRow, get_component_factors data none location = .ok (1.0, 1.0) := by
  constructor
  · show compLoop _ cname location _ = _
    rw [probe_label_eq first]
    exact compLoop_miss first.label cname location (first :: rest) hlab hmiss
  · intro data
    rfl

/-- Witness for the amended C5: a one-row table probed with a key that
matches no row, and the absent-key path on the empty table. -/
theorem C5_fallback_witness :
    get_component_factors [⟨CLabel.component, "drywall", none, none, none⟩]
        (some "ceiling") "Supported Above Grade" = .ok (1.0, 1.0) ∧
    get_component_factors [] none "Supported Above Grade" = .ok (1.0, 1.0) := by
  have h := C5_fallback ⟨CLabel.component, "drywall", none, none, none⟩ [] "Supported Above Grade"
    "ceiling" (by intro row hr; simp at hr; rw [hr]) (by intro row hr; simp at hr; rw [hr]; decide)
  exact ⟨h.1, h.2 []⟩

/-- `sfrsLoop` depends on the lookup key only through its normalization. -/
theorem sfrsLoop_congr (k k' : String) (h : normalizeKey k = normalizeKey k') :
    ∀ data : List SfrsRow, sfrsLoop k data = sfrsLoop k' data
  | [] => rfl
  | row :: rest => by
    rw [sfrsLoop, sfrsLoop, h, sfrsLoop_congr k k' h rest]

/-- `compLoop` depends on the lookup key only through its normalization. -/
theorem compLoop_congr (key : CLabel) (k k' location : String)
    (h : normalizeKey k = normalizeKey k') :
    ∀ data : List CompRow, compLoop key k location data = compLoop key k' location data
  | [] => rfl
  | row :: rest => by
    rw [compLoop, compLoop, h, compLoop_congr key k k' location h rest]

/-- `taLoop` depends on the lookup key only through its normalization. -/
theorem taLoop_congr (rpow : ℚ → ℚ → ℚ) (k k' : String) (hn : ℚ)
    (h : normalizeKey k = normalizeKey k') :
    ∀ data : List PeriodRow, taLoop rpow k hn data = taLoop rpow k' hn data
  | [] => rfl
  | row :: rest => by
    rw [taLoop, taLoop, h, taLoop_congr rpow k k' hn h rest]

/-- C8: every table lookup is insensitive to case and surrounding whitespace
in its key — two present keys with equal stripped, case-folded forms give
identical results from `get_sfrs_factors`, `get_component_factors` (same
location) and `calculate_ta` (same height). -/
theorem C8_key_insensitive (k k' : String) (h : normalizeKey k = normalizeKey k') :
    (∀ data, get_sfrs_factors data (some k) = get_sfrs_factors data (some k')) ∧
    (∀ cdata location,
      get_component_factors cdata (some k) location
        = get_component_factors cdata (some k') location) ∧
    (∀ rpow pdata hn,
      calculate_ta rpow pdata (some k) hn = calculate_ta rpow pdata (some k') hn) := by
  refine ⟨fun data => sfrsLoop_congr k k' h data, fun cdata location => ?_,
    fun rpow pdata hn => taLoop_congr rpow k k' hn h pdata⟩
  cases cdata with
  | nil => rfl
  | cons first rest => exact compLoop_congr _ k k' location h (first :: rest)

/-- Witness for C8: `" Steel Frame "` and `"steel frame"` hit the same row. -/
theorem C8_key_insensitive_witness :
    get_sfrs_factors [⟨"Steel Frame", 3.25, 2⟩] (some " Steel Frame ")
      = get_sfrs_factors [⟨"Steel Frame", 3.25, 2⟩] (some "steel frame") :=
  (C8_key_insensitive " Steel Frame " "steel frame" (by decide)).1
    [⟨"Steel Frame", 3.25, 2⟩]
